import Mathlib

/-!
Shallow embedding of the YouGen tweet quality filter
(`src/yougen/core/quality_filter.py`, data model from
`src/yougen/storage/models.py`).

Python is dynamically typed; JSON-derived values and the annotation slots of
a tweet are modelled with the universal value type `JVal`.  Python numbers
(floats) are modelled with `ℚ`: every comparison performed by the source
involves small decimal constants (50, 60.0, 0.3) and small integer counts,
where exact rational comparison agrees with IEEE double comparison.
Python strings are Lean `String`s / `List Char`; `len` is the code-point
count, matching `String.length`.
-/

/-- Universal type for dynamically typed (JSON-like) Python values. -/
inductive JVal where
  | jnull
  | jbool (b : Bool)
  | jnum (q : ℚ)
  | jstr (s : String)
  | jarr (xs : List JVal)
  | jobj (fields : List (String × JVal))

/-- Python exceptions distinguished by the filter's `except` clauses.
`valueError` also stands for `json.JSONDecodeError` (its subclass). -/
inductive PyErr where
  | valueError
  | typeError
  deriving DecidableEq

/-! String helpers: models of the Python string operations used -/

/-- Model of Python `str.strip()` on a character list. -/
def pyStrip (cs : List Char) : List Char :=
  ((cs.dropWhile Char.isWhitespace).reverse.dropWhile Char.isWhitespace).reverse

/-- Whether `needle` is a prefix of `hay`, for character lists. -/
def listStartsWith : List Char → List Char → Bool
  | [], _ => true
  | _ :: _, [] => false
  | n :: ns, h :: hs => n == h && listStartsWith ns hs

/-- Python `needle in hay` substring containment. -/
def containsSub (needle : List Char) : List Char → Bool
  | [] => needle.isEmpty
  | h :: hs => listStartsWith needle (h :: hs) || containsSub needle hs

/-- Existence of a match of the regex `"[^"]+"` anywhere in the text:
an opening quote, at least one non-quote character, and a closing quote. -/
def hasQuotedSubstr : List Char → Bool
  | [] => false
  | c :: rest =>
    if c = '"' then
      match rest with
      | [] => false
      | d :: _ => if d = '"' then hasQuotedSubstr rest else rest.contains '"'
    else hasQuotedSubstr rest

/-- A URL match of the regex `https?://\S+` begins at the head of `cs`:
the literal scheme followed by at least one non-whitespace character. -/
def urlAt (cs : List Char) : Bool :=
  (listStartsWith "http://".toList cs && (cs.drop 7).head?.elim false (fun c => !c.isWhitespace))
    || (listStartsWith "https://".toList cs && (cs.drop 8).head?.elim false (fun c => !c.isWhitespace))

mutual

/-- Model of `re.sub(r'https?://\S+', '', text)`: leftmost, non-overlapping
matches are removed.  A match region is the maximal non-whitespace run
starting at the scheme. -/
def removeUrlsGo : List Char → List Char
  | [] => []
  | c :: rest => if urlAt (c :: rest) then skipUrlGo rest else c :: removeUrlsGo rest

/-- Consume the remainder of a URL match (non-whitespace characters). -/
def skipUrlGo : List Char → List Char
  | [] => []
  | c :: rest => if c.isWhitespace then c :: removeUrlsGo rest else skipUrlGo rest

end

/-- Model of `_remove_urls_from_text`: `re.sub(r'https?://\S+', '', text).strip()`. -/
def removeUrlsFromText (text : String) : String :=
  ⟨pyStrip (removeUrlsGo text.toList)⟩

mutual

/-- Model of Python `str.split()` (no argument): maximal runs of
non-whitespace characters, in order; separators are dropped. -/
def pySplit : List Char → List (List Char)
  | [] => []
  | c :: rest => if c.isWhitespace then pySplit rest else pySplitWord [c] rest

/-- Accumulate the current word (reversed) while scanning. -/
def pySplitWord (acc : List Char) : List Char → List (List Char)
  | [] => [acc.reverse]
  | c :: rest =>
    if c.isWhitespace then acc.reverse :: pySplit rest else pySplitWord (c :: acc) rest

end

/-- A CJK Unified Ideograph, the character class `[一-鿿]`. -/
def isCJK (c : Char) : Bool := 0x4e00 ≤ c.toNat && c.toNat ≤ 0x9fff

/-- Count of CJK ideographs, `len(re.findall(r'[一-鿿]', text))`. -/
def countChinese (text : String) : ℕ := (text.toList.filter isCJK).length

/-- Model of `_is_chinese_text`: the number of CJK ideographs in `text`, divided by
the length of the *stripped* text (interior whitespace still counted),
exceeds 0.3.  `0.3` is modelled exactly as `3/10`; for the integer counts
involved the IEEE comparison performed by CPython agrees.  The quotient
comparison `chinese / total > 3/10` is stated gcd-free by
cross-multiplication (`total > 0` here), keeping it kernel-computable;
`isChineseText_eq_ratio` below recovers the quotient form. -/
def isChineseText (text : String) : Bool :=
  let chinese := countChinese text
  let total := (pyStrip text.toList).length
  if total = 0 then false
  else decide (3 * total < 10 * chinese)

/-- The fixed opinion-marker word list of `_has_clear_context`. -/
def opinionWords : List String :=
  ["认为", "觉得", "同意", "反对", "think", "believe", "agree", "disagree"]

/-- Model of `_has_clear_context`: length > 30, or an opinion word occurs, or the
text matches `\d+|"[^"]+"|？|\?` somewhere. -/
def hasClearContext (text : String) : Bool :=
  if text.length > 30 then true
  else if opinionWords.any (fun w => containsSub w.toList text.toList) then true
  else if text.toList.any Char.isDigit || hasQuotedSubstr text.toList
      || text.toList.any (fun c => c = '？' || c = '?') then true
  else false

/-- Model of a Python `\w` word character for the characters this code
meets: ASCII alphanumerics, underscore, or a CJK ideograph. -/
def pyWordChar (c : Char) : Bool := c.isAlphanum || c == '_' || isCJK c

/-- Match of `^<demo>[真太很]\w{1,3}` at the start of `cs`:
the demonstrative, an intensifier, and at least one word character. -/
def vagueZhMatch (demo : List Char) (cs : List Char) : Bool :=
  listStartsWith demo cs &&
    match cs.drop demo.length with
    | i :: w :: _ => (i = '真' || i = '太' || i = '很') && pyWordChar w
    | _ => false

/-- ASCII lowercasing, the effect of `re.IGNORECASE` on these patterns. -/
def lowerAscii (cs : List Char) : List Char := cs.map Char.toLower

/-- Match of `^<Demo> is (so|very|really)` (case-insensitive). -/
def vagueEnMatch (demo : String) (cs : List Char) : Bool :=
  let ls := lowerAscii cs
  listStartsWith (demo ++ " is so").toList ls
    || listStartsWith (demo ++ " is very").toList ls
    || listStartsWith (demo ++ " is really").toList ls

/-- Some pattern from the fixed `vague_patterns` table matches at the
start of the (stripped) text. -/
def vaguePatternMatch (cs : List Char) : Bool :=
  vagueZhMatch "这个".toList cs || vagueZhMatch "那个".toList cs
    || vagueZhMatch "它".toList cs
    || vagueEnMatch "this" cs || vagueEnMatch "that" cs || vagueEnMatch "it" cs

/-- Model of `_has_unclear_external_reference`: after stripping, some vague pattern
matches at the start and the stripped length is < 30. -/
def hasUnclearExternalReference (text : String) : Bool :=
  let t := pyStrip text.toList
  vaguePatternMatch t && t.length < 30

/-! Data model -/

/-- A media entry `{type, url}` attached to a tweet. -/
structure MediaItem where
  mediaType : String
  url : String
  deriving DecidableEq

/-- The fields of `Tweet` (storage/models.py) consumed or written by the
quality filter.  Identity/metadata fields not interpreted by the filter
(`created_at`, the counters, `conversation_id`, ...) are represented by the
opaque `id` and `author` fields. -/
structure Tweet where
  id : String
  author : String
  text : String
  is_reply : Bool := false
  has_quoted_content : Bool := false
  media : List MediaItem := []
  urls : List String := []
  quality_score : Option ℚ := none
  quality_issues : JVal := JVal.jarr []
  filtered_reason : Option JVal := none

/-- Result record `QualityFilterResult`; the `__post_init__` conversion of `issues = None`
to `[]` is reflected in the default value. -/
structure QualityFilterResult where
  passed : Bool
  score : Option ℚ := none
  issues : JVal := JVal.jarr []
  reason : Option JVal := none

/-- The configuration fields resolved once in `TweetQualityFilter.__init__`.
`enabled` is part of the configuration dict (docstring and spec §3); it is
stored via `self.config` but never consulted by any method. -/
structure FilterConfig where
  enabled : Bool := true
  min_text_length : ℕ := 20
  filter_media_only : Bool := true
  filter_reply_without_context : Bool := true
  filter_external_references : Bool := true
  ai_enabled : Bool := true
  min_quality_score : ℚ := 60
  batch_size : ℕ := 5
  max_concurrent : ℕ := 3
  model : String := "claude-sonnet-4-5-20250929"
  timeout_seconds : ℕ := 30
  on_failure : String := "pass"
  deriving DecidableEq

/-- The configuration obtained when every `.get` falls back to its default. -/
def defaultFilterConfig : FilterConfig := {}

/-! Rule engine: `_check_rules` -/

/-- Condition of rule 1 (media-only), toggle included: the tweet has at
least one media entry and the URL-stripped text has fewer than 10
characters after stripping. -/
def mediaOnlyViolation (cfg : FilterConfig) (t : Tweet) : Bool :=
  cfg.filter_media_only && (t.media.length > 0
    && (pyStrip (removeUrlsFromText t.text).toList).length < 10)

/-- Condition of rule 2 (reply-without-context), toggle included. -/
def replyViolation (cfg : FilterConfig) (t : Tweet) : Bool :=
  cfg.filter_reply_without_context && (t.is_reply && !t.has_quoted_content
    && !hasClearContext (removeUrlsFromText t.text))

/-- Condition of rule 3 (length): character count for CJK-dominant text,
whitespace-split word count otherwise.  This rule has no toggle. -/
def lengthViolation (cfg : FilterConfig) (t : Tweet) : Bool :=
  let clean := removeUrlsFromText t.text
  if isChineseText clean then clean.length < cfg.min_text_length
  else (pySplit clean.toList).length < cfg.min_text_length

/-- Condition of rule 4 (vague external reference), toggle included;
tested on the original text. -/
def vagueViolation (cfg : FilterConfig) (t : Tweet) : Bool :=
  cfg.filter_external_references && hasUnclearExternalReference t.text

/-- Rule 4 and the all-rules-passed result, the tail of `_check_rules`. -/
def checkRule4 (cfg : FilterConfig) (t : Tweet) : QualityFilterResult :=
  if vagueViolation cfg t then
    ⟨false, none, .jarr [.jstr "vague_reference"], some (.jstr "包含模糊的外部引用")⟩
  else ⟨true, none, .jarr [], none⟩

/-- Model of `_check_rules`: the four rules in source order, each failing rule
returning immediately. -/
def checkRules (cfg : FilterConfig) (t : Tweet) : QualityFilterResult :=
  if mediaOnlyViolation cfg t then
    ⟨false, none, .jarr [.jstr "media_only"], some (.jstr "仅包含媒体，文本内容不足")⟩
  else if replyViolation cfg t then
    ⟨false, none, .jarr [.jstr "reply_without_context"], some (.jstr "回复推文缺乏上下文")⟩
  else
    let clean := removeUrlsFromText t.text
    if isChineseText clean then
      if clean.length < cfg.min_text_length then
        ⟨false, none, .jarr [.jstr "too_short"],
          some (.jstr ("推文过短（<" ++ toString cfg.min_text_length ++ "字）"))⟩
      else checkRule4 cfg t
    else
      if (pySplit clean.toList).length < cfg.min_text_length then
        ⟨false, none, .jarr [.jstr "too_short"],
          some (.jstr ("推文过短（<" ++ toString cfg.min_text_length ++ "词）"))⟩
      else checkRule4 cfg t

/-- Model of `_apply_rule_filters`: partition the batch, annotating filtered tweets
with the rule result's reason and issues. -/
def applyRuleFilters (cfg : FilterConfig) : List Tweet → List Tweet × List Tweet
  | [] => ([], [])
  | t :: rest =>
    let r := checkRules cfg t
    let pf := applyRuleFilters cfg rest
    if r.passed then (t :: pf.1, pf.2)
    else (pf.1, { t with filtered_reason := r.reason, quality_issues := r.issues } :: pf.2)

/-! AI stage: `_apply_ai_filters`, `_analyze_tweet_quality`,
`_parse_ai_response`.

The external boundary — the `query` call, the regex JSON extraction and
`json.loads` — is modelled by oracle values describing its outcome for each
task; everything the Python code does with such an outcome is embedded. -/

/-- Outcome of `re.search(r'\{[\s\S]*\}', response)` followed by
`json.loads` on a raw response string: no JSON-looking substring at all, a
substring that fails to decode (`json.JSONDecodeError`), or a decoded JSON
object. -/
inductive ExtractOutcome where
  | noJson
  | decodeError
  | decoded (data : List (String × JVal))

/-- Model of `dict.get(key, default)` (first binding wins, as after `json.loads`). -/
def jsonGet (data : List (String × JVal)) (key : String) (dflt : JVal) : JVal :=
  (data.lookup key).getD dflt

/-- Read an optional leading sign; true means negative. -/
def readSign (cs : List Char) : Bool × List Char :=
  match cs with
  | '-' :: r => (true, r)
  | '+' :: r => (false, r)
  | _ => (false, cs)

/-- Parse a complete digit group with optional single underscores between
digits (the CPython numeric-literal underscore rule): returns the digits
with underscores removed, or `none` if the group is empty, contains a
non-digit, or has a leading, trailing or doubled underscore. -/
def digitGroup : List Char → Option (List Char)
  | [] => none
  | [c] => if c.isDigit then some [c] else none
  | c :: '_' :: rest2 => if c.isDigit then (digitGroup rest2).map (c :: ·) else none
  | c :: d :: rest2 => if c.isDigit then (digitGroup (d :: rest2)).map (c :: ·) else none

/-- Numeric value of a list of decimal digits. -/
def digitsVal (ds : List Char) : ℕ :=
  ds.foldl (fun n c => 10 * n + (c.toNat - '0'.toNat)) 0

/-- Model of `float(str)` for finite float literals: after stripping
whitespace, optional sign, then `digits [. [digits]]` or `. digits`, each
digit group allowing CPython underscore separators, and an optional
`e`/`E` exponent with optional sign — exactly representable in `ℚ`.
ASCII digits only (the extra Unicode decimal digits CPython maps are not
exercised here); the `inf`/`nan` spellings are handled separately by
`floatNonFinite`. -/
def strToFloatQ (s : String) : Option ℚ :=
  let cs := pyStrip s.toList
  let sgn := readSign cs
  let mant := sgn.2.takeWhile (fun c => !(c == 'e' || c == 'E'))
  let erest := sgn.2.dropWhile (fun c => !(c == 'e' || c == 'E'))
  let ip := mant.takeWhile (fun c => c ≠ '.')
  let frest := mant.dropWhile (fun c => c ≠ '.')
  let mantVal : Option (ℕ × ℕ × ℕ) :=
    match frest with
    | [] => (digitGroup ip).map (fun ds => (digitsVal ds, 0, 0))
    | _ :: fp =>
      if fp.contains '.' then none
      else
        match ip, fp with
        | [], [] => none
        | [], _ => (digitGroup fp).map (fun fs => (0, digitsVal fs, fs.length))
        | _, [] => (digitGroup ip).map (fun ds => (digitsVal ds, 0, 0))
        | _, _ =>
          match digitGroup ip, digitGroup fp with
          | some ds, some fs => some (digitsVal ds, digitsVal fs, fs.length)
          | _, _ => none
  let expVal : Option ℤ :=
    match erest with
    | [] => some 0
    | _ :: er =>
      let es := readSign er
      (digitGroup es.2).map
        (fun ds => if es.1 then -(digitsVal ds : ℤ) else (digitsVal ds : ℤ))
  match mantVal, expVal with
  | some v, some e =>
    let mval : ℚ := (v.1 : ℚ) + (v.2.1 : ℚ) / ((10 : ℚ) ^ v.2.2)
    let scaled : ℚ :=
      if 0 ≤ e then mval * (10 : ℚ) ^ e.toNat else mval / (10 : ℚ) ^ (-e).toNat
    some (if sgn.1 then -scaled else scaled)
  | _, _ => none

/-- Outcome of the Python builtin `float(...)`: a finite value, one of the
non-finite IEEE values (which have no exact-rational representative), or a
raised exception. -/
inductive FloatOutcome where
  | fin (q : ℚ)
  | pinf
  | ninf
  | nan
  | err (e : PyErr)

/-- Recognize the `inf`/`infinity`/`nan` spellings (case-insensitive,
optional sign) that `float(str)` coerces to non-finite values. -/
def floatNonFinite (s : String) : Option FloatOutcome :=
  let cs := pyStrip s.toList
  let sgn := readSign cs
  let core := lowerAscii sgn.2
  if core == "inf".toList || core == "infinity".toList then
    some (if sgn.1 then .ninf else .pinf)
  else if core == "nan".toList then some .nan
  else none

/-- Model of the Python builtin `float(...)` on a JSON-derived value:
numbers and booleans coerce, float-literal strings parse (`strToFloatQ`),
infinity/NaN spellings give non-finite values, other strings raise
`ValueError`, and `None`/lists/objects raise `TypeError`. -/
def pyFloat : JVal → FloatOutcome
  | .jnum q => .fin q
  | .jbool b => .fin (if b then 1 else 0)
  | .jstr s =>
    match strToFloatQ s with
    | some q => .fin q
    | none =>
      match floatNonFinite s with
      | some v => v
      | none => .err .valueError
  | .jnull => .err .typeError
  | .jarr _ => .err .typeError
  | .jobj _ => .err .typeError

/-- The fallback result of `_parse_ai_response`.  The source appends the
textual `str(e)` diagnostic to the reason; the diagnostic text is
abstracted here. -/
def parseFailFallback : QualityFilterResult :=
  ⟨true, some 50, .jarr [.jstr "parse_error"], some (.jstr "解析AI响应失败")⟩

/-- Model of `_parse_ai_response`.  `ValueError` (including
`json.JSONDecodeError`) is caught by the `except` clause and yields the
fallback; `TypeError` from `float(...)` is not listed there and propagates
to the caller.  For a non-finite score the source proceeds with the IEEE
value: `inf >= min` holds and `-inf >= min`, `nan >= min` fail for the
finite `min_quality_score`, giving the pass decision below; the stored
non-finite score itself has no exact-rational representative and is
modelled as `none` (the sole approximation in this embedding). -/
def parseAiResponse (cfg : FilterConfig) : ExtractOutcome → Except PyErr QualityFilterResult
  | .noJson => .ok ⟨true, some 50, .jarr [.jstr "parse_error"], some (.jstr "无法解析AI响应")⟩
  | .decodeError => .ok parseFailFallback
  | .decoded data =>
    match pyFloat (jsonGet data "score" (.jnum 50)) with
    | .err .valueError => .ok parseFailFallback
    | .err .typeError => .error .typeError
    | .fin score =>
      let issues := jsonGet data "issues" (.jarr [])
      let analysis := jsonGet data "analysis" (.jstr "")
      let passed : Bool := cfg.min_quality_score ≤ score
      .ok ⟨passed, some score, issues, if passed then none else some analysis⟩
    | .pinf =>
      .ok ⟨true, none, jsonGet data "issues" (.jarr []), none⟩
    | .ninf =>
      .ok ⟨false, none, jsonGet data "issues" (.jarr []),
        some (jsonGet data "analysis" (.jstr ""))⟩
    | .nan =>
      .ok ⟨false, none, jsonGet data "issues" (.jarr []),
        some (jsonGet data "analysis" (.jstr ""))⟩

/-- Outcome of the bounded external `query` call for one tweet: a response
(described by its JSON-extraction outcome), an `asyncio.TimeoutError`, or
any other exception with its message. -/
inductive CallOutcome where
  | success (extract : ExtractOutcome)
  | timeout
  | failure (msg : String)

/-- Model of `_analyze_tweet_quality`: parse a successful response (any exception
the parser raises is caught by the `except Exception` clause), convert a
timeout, and apply the `on_failure` policy to other failures. -/
def analyzeTweetQuality (cfg : FilterConfig) : CallOutcome → QualityFilterResult
  | .timeout =>
    ⟨if cfg.on_failure == "filter" then false else true,
      some 50, .jarr [.jstr "ai_timeout"], some (.jstr "AI分析超时")⟩
  | .failure msg =>
    if cfg.on_failure == "pass" then ⟨true, none, .jarr [], none⟩
    else ⟨false, none, .jarr [.jstr "ai_error"], some (.jstr ("AI分析异常: " ++ msg))⟩
  | .success ext =>
    match parseAiResponse cfg ext with
    | .ok r => r
    | .error _ =>
      if cfg.on_failure == "pass" then ⟨true, none, .jarr [], none⟩
      else ⟨false, none, .jarr [.jstr "ai_error"], some (.jstr "AI分析异常: TypeError")⟩

/-- What one scoring task delivers to `asyncio.gather(.., return_exceptions
:= True)`: a `QualityFilterResult`, or an exception object. -/
inductive TaskOutcome where
  | res (r : QualityFilterResult)
  | exc (msg : String)

/-- The `for tweet, result in zip(batch, results)` loop body of
`_apply_ai_filters`, over one batch. -/
def processBatch (cfg : FilterConfig) : List (Tweet × TaskOutcome) → List Tweet × List Tweet
  | [] => ([], [])
  | (t, o) :: rest =>
    let pf := processBatch cfg rest
    match o with
    | .exc msg =>
      if cfg.on_failure == "pass" then (t :: pf.1, pf.2)
      else (pf.1, { t with
          filtered_reason := some (.jstr ("AI分析失败: " ++ msg)),
          quality_issues := .jarr [.jstr "ai_error"] } :: pf.2)
    | .res r =>
      if r.passed then ({ t with quality_score := r.score } :: pf.1, pf.2)
      else (pf.1, { t with
          quality_score := r.score,
          quality_issues := r.issues,
          filtered_reason := r.reason } :: pf.2)

/-- The slices `l[i:i+n]` for `i in range(0, len(l), n)`, by fuel-bounded
recursion (`fuel ≥ l.length` and `n > 0` make the fuel immaterial; in
Python a step of 0 raises `ValueError`). -/
def chunkListB (n : ℕ) : ℕ → List α → List (List α)
  | _, [] => []
  | 0, _ => []
  | fuel + 1, l => l.take n :: chunkListB n fuel (l.drop n)

/-- The batches `tweets[i:i+batch_size]` of `_apply_ai_filters`. -/
def chunkList (n : ℕ) (l : List α) : List (List α) := chunkListB n l.length l

/-- Model of `_apply_ai_filters`: pair each rule-approved tweet with its task's
outcome (`oc i` for the `i`-th task overall), process the batches
sequentially, and concatenate the per-batch passed/filtered lists in
order. -/
def applyAiFilters (cfg : FilterConfig) (oc : ℕ → TaskOutcome) (tweets : List Tweet) :
    List Tweet × List Tweet :=
  let pairs := tweets.enum.map fun p => (p.2, oc p.1)
  (chunkList cfg.batch_size pairs).foldr
    (fun b acc => let r := processBatch cfg b; (r.1 ++ acc.1, r.2 ++ acc.2)) ([], [])

/-- Model of `filter_batch`: empty input short-circuits; rule filtering always runs;
the AI stage runs when enabled and some tweet passed the rules; the final
filtered list is rule-filtered tweets followed by AI-filtered tweets. -/
def filterBatch (cfg : FilterConfig) (oc : ℕ → TaskOutcome) (tweets : List Tweet) :
    List Tweet × List Tweet :=
  if tweets.isEmpty then ([], [])
  else
    let rules := applyRuleFilters cfg tweets
    if cfg.ai_enabled && !rules.1.isEmpty then
      let ai := applyAiFilters cfg oc rules.1
      (ai.1, rules.2 ++ ai.2)
    else rules

/-! Specification-side definitions.  The definitions above are translated
from the source; the following phrase the spec's claims (issue-tag order,
order-preserving selection, annotation stripping, ratio over non-blank
characters) so the theorems below can compare the two. -/

/-- Tags of all rules whose condition (toggle included) holds, evaluated
independently and listed in the spec's fixed precedence order. -/
def failingTags (cfg : FilterConfig) (t : Tweet) : List String :=
  (if mediaOnlyViolation cfg t then ["media_only"] else [])
    ++ (if replyViolation cfg t then ["reply_without_context"] else [])
    ++ (if lengthViolation cfg t then ["too_short"] else [])
    ++ (if vagueViolation cfg t then ["vague_reference"] else [])

/-- The four rules of the engine, as claim C8 enumerates them. -/
inductive RuleId where
  | mediaOnly
  | replyNoContext
  | tooShort
  | vagueRef
  deriving DecidableEq

/-- The raw condition of one rule, without its configuration toggle. -/
def ruleFires : RuleId → FilterConfig → Tweet → Bool
  | .mediaOnly, _, t =>
    t.media.length > 0 && (pyStrip (removeUrlsFromText t.text).toList).length < 10
  | .replyNoContext, _, t =>
    t.is_reply && !t.has_quoted_content && !hasClearContext (removeUrlsFromText t.text)
  | .tooShort, cfg, t => lengthViolation cfg t
  | .vagueRef, _, t => hasUnclearExternalReference t.text

/-- The issue tag a rule reports. -/
def ruleTag : RuleId → String
  | .mediaOnly => "media_only"
  | .replyNoContext => "reply_without_context"
  | .tooShort => "too_short"
  | .vagueRef => "vague_reference"

/-- The ordered chain of rules active under a configuration.  The three
toggles each remove one rule; the length rule has no toggle and is always
present. -/
def activeChain (cfg : FilterConfig) : List RuleId :=
  (if cfg.filter_media_only then [.mediaOnly] else [])
    ++ (if cfg.filter_reply_without_context then [.replyNoContext] else [])
    ++ [.tooShort]
    ++ (if cfg.filter_external_references then [.vagueRef] else [])

/-- Disposition of one AI-stage task into the passed list, as the spec
describes it per post: an exception passes the post unmodified under the
`pass` policy; a passing result passes the post with its `qualityScore` set
to the result's score. -/
def passSel (cfg : FilterConfig) (p : Tweet × TaskOutcome) : Option Tweet :=
  match p.2 with
  | .exc _ => if cfg.on_failure == "pass" then some p.1 else none
  | .res r => if r.passed then some { p.1 with quality_score := r.score } else none

/-- Disposition of one AI-stage task into the filtered list: the post
annotated as the failure mode dictates. -/
def filtSel (cfg : FilterConfig) (p : Tweet × TaskOutcome) : Option Tweet :=
  match p.2 with
  | .exc msg =>
    if cfg.on_failure == "pass" then none
    else some { p.1 with
      filtered_reason := some (.jstr ("AI分析失败: " ++ msg)),
      quality_issues := .jarr [.jstr "ai_error"] }
  | .res r =>
    if r.passed then none
    else some { p.1 with
      quality_score := r.score, quality_issues := r.issues, filtered_reason := r.reason }

/-- A tweet with its three filter-annotation slots reset; two tweets equal
up to `stripAnn` agree on every identity field. -/
def stripAnn (t : Tweet) : Tweet :=
  { t with quality_score := none, quality_issues := JVal.jarr [], filtered_reason := none }

/-- Number of non-blank (non-whitespace) characters of a text, the
denominator named by the spec's CJK-dominance glossary entry. -/
def nonBlankCount (s : String) : ℕ :=
  (s.toList.filter (fun c => !c.isWhitespace)).length

/-! Concrete fixtures for counterexamples and witnesses. -/

/-- A short English tweet without media, not a reply ("Great stuff!",
2 words). -/
def exTweetShort : Tweet := { id := "1", author := "u", text := "Great stuff!" }

/-- A tweet used for the AI-stage counterexample; its annotation slots hold
their defaults (`quality_score = none`). -/
def exTweetAi : Tweet :=
  { id := "2", author := "u",
    text := "The latest developments in AI technology show promising results." }

/-- A configuration with every rule toggle disabled. -/
def cfgAllRulesOff : FilterConfig :=
  { filter_media_only := false, filter_reply_without_context := false,
    filter_external_references := false }

/-- A configuration with top-level filtering disabled (`enabled = false`)
and the AI stage off. -/
def cfgDisabled : FilterConfig := { enabled := false, ai_enabled := false }

/-- Oracle resolving every AI task to a passing result of score 85. -/
def ocPass85 : ℕ → TaskOutcome := fun _ => .res ⟨true, some 85, .jarr [], none⟩

/-- Oracle resolving every AI task to an exception. -/
def ocExc : ℕ → TaskOutcome := fun _ => .exc "API Error"

/-- A decoded JSON object whose `score` field is a non-numeric string. -/
def dataBadScore : List (String × JVal) := [("score", .jstr "abc")]

/-- Text whose CJK ratio over non-blank characters exceeds 0.3 while its
ratio over the stripped length (the source's denominator) does not. -/
def exMixedText : String := "中文 a b c d"

/-- Configuration with batch size 2, for the C9 batching example. -/
def cfgB2 : FilterConfig := { batch_size := 2 }

/-- Five posts, for the C9 batching example (batch sizes [2, 2, 1]). -/
def tweets5 : List Tweet :=
  ["1", "2", "3", "4", "5"].map fun i => { id := i, author := "u", text := "post " ++ i }

/-! Helper lemmas (shared; not claim theorems). -/

theorem mediaOnlyViolation_eq (cfg : FilterConfig) (t : Tweet) :
    mediaOnlyViolation cfg t = (cfg.filter_media_only && ruleFires .mediaOnly cfg t) := rfl

theorem replyViolation_eq (cfg : FilterConfig) (t : Tweet) :
    replyViolation cfg t = (cfg.filter_reply_without_context && ruleFires .replyNoContext cfg t) := rfl

theorem lengthViolation_eq (cfg : FilterConfig) (t : Tweet) :
    lengthViolation cfg t = ruleFires .tooShort cfg t := rfl

theorem vagueViolation_eq (cfg : FilterConfig) (t : Tweet) :
    vagueViolation cfg t = (cfg.filter_external_references && ruleFires .vagueRef cfg t) := rfl

theorem checkRules_passed (cfg : FilterConfig) (t : Tweet) :
    (checkRules cfg t).passed =
      (!mediaOnlyViolation cfg t && !replyViolation cfg t
        && !lengthViolation cfg t && !vagueViolation cfg t) := by
  by_cases h1 : mediaOnlyViolation cfg t
  · simp [checkRules, h1]
  · by_cases h2 : replyViolation cfg t
    · simp [checkRules, h1, h2]
    · by_cases hc : isChineseText (removeUrlsFromText t.text)
      · by_cases hl : (removeUrlsFromText t.text).length < cfg.min_text_length
        · simp [checkRules, lengthViolation, h1, h2, hc, hl]
        · by_cases hv : vagueViolation cfg t <;>
            simp [checkRules, checkRule4, lengthViolation, h1, h2, hc, hl, hv]
      · by_cases hl : (pySplit (removeUrlsFromText t.text).data).length < cfg.min_text_length
        · simp [checkRules, lengthViolation, h1, h2, hc, hl]
        · by_cases hv : vagueViolation cfg t <;>
            simp [checkRules, checkRule4, lengthViolation, h1, h2, hc, hl, hv]

theorem checkRules_issues (cfg : FilterConfig) (t : Tweet) :
    (checkRules cfg t).issues =
      (if mediaOnlyViolation cfg t then .jarr [.jstr "media_only"]
       else if replyViolation cfg t then .jarr [.jstr "reply_without_context"]
       else if lengthViolation cfg t then .jarr [.jstr "too_short"]
       else if vagueViolation cfg t then .jarr [.jstr "vague_reference"]
       else .jarr []) := by
  by_cases h1 : mediaOnlyViolation cfg t
  · simp [checkRules, h1]
  · by_cases h2 : replyViolation cfg t
    · simp [checkRules, h1, h2]
    · by_cases hc : isChineseText (removeUrlsFromText t.text)
      · by_cases hl : (removeUrlsFromText t.text).length < cfg.min_text_length
        · simp [checkRules, lengthViolation, h1, h2, hc, hl]
        · by_cases hv : vagueViolation cfg t <;>
            simp [checkRules, checkRule4, lengthViolation, h1, h2, hc, hl, hv]
      · by_cases hl : (pySplit (removeUrlsFromText t.text).data).length < cfg.min_text_length
        · simp [checkRules, lengthViolation, h1, h2, hc, hl]
        · by_cases hv : vagueViolation cfg t <;>
            simp [checkRules, checkRule4, lengthViolation, h1, h2, hc, hl, hv]

theorem checkRules_of_no_violation (cfg : FilterConfig) (t : Tweet)
    (h1 : mediaOnlyViolation cfg t = false) (h2 : replyViolation cfg t = false)
    (h3 : lengthViolation cfg t = false) (h4 : vagueViolation cfg t = false) :
    checkRules cfg t = ⟨true, none, .jarr [], none⟩ := by
  by_cases hc : isChineseText (removeUrlsFromText t.text)
  · simp only [lengthViolation, hc, if_true, decide_eq_false_iff_not] at h3
    simp [checkRules, checkRule4, h1, h2, hc, h3, h4]
  · simp only [lengthViolation, hc, if_false, Bool.false_eq_true,
      decide_eq_false_iff_not, String.toList] at h3
    simp [checkRules, checkRule4, h1, h2, hc, h3, h4]

/-- C3: for every post, the rule engine evaluates the rules in the fixed
order media_only, reply_without_context, too_short, vague_reference; the
first failing rule short-circuits the rest, so the post passes exactly when
no rule fails, and a failing post's result carries exactly one issue tag,
that of the first failing rule. -/
theorem rule_order_short_circuit (cfg : FilterConfig) (t : Tweet) :
    ((checkRules cfg t).passed = true ↔ failingTags cfg t = []) ∧
    ∀ tag, (failingTags cfg t).head? = some tag →
      (checkRules cfg t).passed = false ∧ (checkRules cfg t).issues = .jarr [.jstr tag] := by
  by_cases h1 : mediaOnlyViolation cfg t <;>
  by_cases h2 : replyViolation cfg t <;>
  by_cases h3 : lengthViolation cfg t <;>
  by_cases h4 : vagueViolation cfg t <;>
  simp [checkRules_passed, checkRules_issues, failingTags, h1, h2, h3, h4]

/-- C8 counterexample: with every rule toggle of the configuration
disabled, the length rule still fires — no configuration removes the
length rule from the chain, so the rules are not all independently
toggleable. -/
theorem length_rule_not_toggleable_cex :
    cfgAllRulesOff.filter_media_only = false ∧
    cfgAllRulesOff.filter_reply_without_context = false ∧
    cfgAllRulesOff.filter_external_references = false ∧
    (checkRules cfgAllRulesOff exTweetShort).passed = false ∧
    (checkRules cfgAllRulesOff exTweetShort).issues = .jarr [.jstr "too_short"] :=
  ⟨rfl, rfl, rfl, rfl, rfl⟩

/-- C8 (amended): the media-only, reply-without-context and
vague-external-reference rules are each independently toggleable, and
disabling one removes exactly that rule from the ordered chain, leaving
the behaviour and order of the remaining rules unchanged; the length rule
has no toggle and is always part of the chain.  `checkRules` behaves as
first-failing evaluation of `activeChain cfg`. -/
theorem checkRules_eq_activeChain (cfg : FilterConfig) (t : Tweet) :
    ((activeChain cfg).find? (fun r => ruleFires r cfg t) = none →
      checkRules cfg t = ⟨true, none, .jarr [], none⟩) ∧
    ∀ r, (activeChain cfg).find? (fun r => ruleFires r cfg t) = some r →
      (checkRules cfg t).passed = false ∧
        (checkRules cfg t).issues = .jarr [.jstr (ruleTag r)] := by
  constructor
  · intro hnone
    have hall := List.find?_eq_none.mp hnone
    apply checkRules_of_no_violation
    · rw [mediaOnlyViolation_eq]
      by_cases hm : cfg.filter_media_only
      · have h := hall RuleId.mediaOnly (by simp [activeChain, hm])
        simp_all
      · simp [hm]
    · rw [replyViolation_eq]
      by_cases hrr : cfg.filter_reply_without_context
      · have h := hall RuleId.replyNoContext (by simp [activeChain, hrr])
        simp_all
      · simp [hrr]
    · rw [lengthViolation_eq]
      have h := hall RuleId.tooShort (by simp [activeChain])
      simpa using h
    · rw [vagueViolation_eq]
      by_cases hv : cfg.filter_external_references
      · have h := hall RuleId.vagueRef (by simp [activeChain, hv])
        simp_all
      · simp [hv]
  · intro r hfind
    have e1 := mediaOnlyViolation_eq cfg t
    have e2 := replyViolation_eq cfg t
    have e3 := lengthViolation_eq cfg t
    have e4 := vagueViolation_eq cfg t
    cases r <;>
    by_cases hm : cfg.filter_media_only <;>
    by_cases hrr : cfg.filter_reply_without_context <;>
    by_cases hv : cfg.filter_external_references <;>
    by_cases f1 : ruleFires .mediaOnly cfg t <;>
    by_cases f2 : ruleFires .replyNoContext cfg t <;>
    by_cases f3 : ruleFires .tooShort cfg t <;>
    by_cases f4 : ruleFires .vagueRef cfg t <;>
    simp_all [activeChain, List.find?, checkRules_passed, checkRules_issues, ruleTag]

theorem isChineseText_eq_ratio (text : String) :
    isChineseText text = true ↔
      ((pyStrip text.toList).length ≠ 0 ∧
        (3 : ℚ) / 10 < (countChinese text : ℚ) / ((pyStrip text.toList).length : ℚ)) := by
  have key : ∀ c n : ℕ,
      ((if n = 0 then false else decide (3 * n < 10 * c)) = true ↔
        (n ≠ 0 ∧ (3 : ℚ) / 10 < (c : ℚ) / (n : ℚ))) := by
    intro c n
    rcases Nat.eq_zero_or_pos n with h | h
    · subst h; simp
    · have hne := Nat.pos_iff_ne_zero.mp h
      have hpos : (0 : ℚ) < (n : ℚ) := by exact_mod_cast h
      rw [if_neg hne, decide_eq_true_eq, div_lt_div_iff₀ (by norm_num) hpos]
      constructor
      · intro hlt
        refine ⟨hne, ?_⟩
        have hn : (3 * n : ℕ) < c * 10 := by omega
        exact_mod_cast hn
      · rintro ⟨-, hlt⟩
        have hn : (3 * n : ℕ) < c * 10 := by exact_mod_cast hlt
        omega
  exact key (countChinese text) ((pyStrip text.toList).length)

/-- C6 counterexample: for the text "中文 a b c d", the ratio of CJK code
points to non-blank characters is 1/3 > 0.3, yet the code does not
classify it as CJK-dominant, because its denominator is the length of the
stripped text with interior whitespace still counted (2/10 ≤ 0.3). -/
theorem cjk_denominator_cex :
    isChineseText exMixedText = false ∧
    countChinese exMixedText = 2 ∧ nonBlankCount exMixedText = 6 ∧
    (pyStrip exMixedText.toList).length = 10 ∧
    (3 : ℚ) / 10 < (countChinese exMixedText : ℚ) / (nonBlankCount exMixedText : ℚ) := by
  refine ⟨rfl, rfl, rfl, rfl, ?_⟩
  rw [show countChinese exMixedText = 2 from rfl, show nonBlankCount exMixedText = 6 from rfl]
  norm_num

/-- C6 (amended): the length rule classifies the URL-stripped text as
CJK-dominant exactly when the ratio of CJK code points to the total length
of the whitespace-stripped text (interior whitespace included in the
denominator) exceeds 0.3, an empty stripped text never being
CJK-dominant; when the earlier rules do not fire, a CJK-dominant text
fails with the sole issue `too_short` exactly when its character count is
below `minTextLength`, and a non-CJK-dominant text exactly when its
whitespace-split word count is below `minTextLength`; the default
threshold is 20. -/
theorem length_rule_cjk_classification (cfg : FilterConfig) (t : Tweet)
    (h1 : mediaOnlyViolation cfg t = false) (h2 : replyViolation cfg t = false) :
    (isChineseText (removeUrlsFromText t.text) = true ↔
      ((pyStrip (removeUrlsFromText t.text).toList).length ≠ 0 ∧
        (3 : ℚ) / 10 < (countChinese (removeUrlsFromText t.text) : ℚ) /
          ((pyStrip (removeUrlsFromText t.text).toList).length : ℚ))) ∧
    (isChineseText (removeUrlsFromText t.text) = true →
      (((checkRules cfg t).passed = false ∧
          (checkRules cfg t).issues = .jarr [.jstr "too_short"]) ↔
        (removeUrlsFromText t.text).length < cfg.min_text_length)) ∧
    (isChineseText (removeUrlsFromText t.text) = false →
      (((checkRules cfg t).passed = false ∧
          (checkRules cfg t).issues = .jarr [.jstr "too_short"]) ↔
        (pySplit (removeUrlsFromText t.text).toList).length < cfg.min_text_length)) ∧
    defaultFilterConfig.min_text_length = 20 := by
  refine ⟨isChineseText_eq_ratio _, ?_, ?_, rfl⟩
  · intro hc
    by_cases hl : (removeUrlsFromText t.text).length < cfg.min_text_length
    · simp [checkRules_passed, checkRules_issues, lengthViolation, h1, h2, hc, hl]
    · by_cases hv : vagueViolation cfg t <;>
        simp [checkRules_passed, checkRules_issues, lengthViolation, h1, h2, hc, hl, hv]
  · intro hc
    by_cases hl : (pySplit (removeUrlsFromText t.text).data).length < cfg.min_text_length
    · simp [checkRules_passed, checkRules_issues, lengthViolation, h1, h2, hc, hl]
    · by_cases hv : vagueViolation cfg t <;>
        simp [checkRules_passed, checkRules_issues, lengthViolation, h1, h2, hc, hl, hv]

/-- Witness for C6 (amended) at the default configuration and the concrete
tweet `exTweetShort`. -/
theorem length_rule_cjk_classification_witness :
    mediaOnlyViolation defaultFilterConfig exTweetShort = false ∧
    replyViolation defaultFilterConfig exTweetShort = false ∧
    ((isChineseText (removeUrlsFromText exTweetShort.text) = true ↔
      ((pyStrip (removeUrlsFromText exTweetShort.text).toList).length ≠ 0 ∧
        (3 : ℚ) / 10 < (countChinese (removeUrlsFromText exTweetShort.text) : ℚ) /
          ((pyStrip (removeUrlsFromText exTweetShort.text).toList).length : ℚ))) ∧
    (isChineseText (removeUrlsFromText exTweetShort.text) = true →
      (((checkRules defaultFilterConfig exTweetShort).passed = false ∧
          (checkRules defaultFilterConfig exTweetShort).issues = .jarr [.jstr "too_short"]) ↔
        (removeUrlsFromText exTweetShort.text).length < defaultFilterConfig.min_text_length)) ∧
    (isChineseText (removeUrlsFromText exTweetShort.text) = false →
      (((checkRules defaultFilterConfig exTweetShort).passed = false ∧
          (checkRules defaultFilterConfig exTweetShort).issues = .jarr [.jstr "too_short"]) ↔
        (pySplit (removeUrlsFromText exTweetShort.text).toList).length <
          defaultFilterConfig.min_text_length)) ∧
    defaultFilterConfig.min_text_length = 20) :=
  ⟨rfl, rfl, length_rule_cjk_classification defaultFilterConfig exTweetShort rfl rfl⟩

/-- C5: for every configuration, a scoring task whose call times out
resolves to a result with score 50, the single issue tag `ai_timeout`, a
timeout reason, and passed exactly when `onFailure` is not `filter`. -/
theorem analyze_timeout_policy (cfg : FilterConfig) :
    (analyzeTweetQuality cfg .timeout).score = some 50 ∧
    (analyzeTweetQuality cfg .timeout).issues = .jarr [.jstr "ai_timeout"] ∧
    (analyzeTweetQuality cfg .timeout).reason = some (.jstr "AI分析超时") ∧
    ((analyzeTweetQuality cfg .timeout).passed = true ↔ cfg.on_failure ≠ "filter") := by
  refine ⟨rfl, rfl, rfl, ?_⟩
  by_cases h : cfg.on_failure = "filter" <;> simp [analyzeTweetQuality, h]

/-- C4: for every configuration (hence every `onFailure` setting) and
every raw response from which no JSON object is extracted or whose
extracted substring fails to decode, the parser returns passed = true,
score = 50 and issues = ["parse_error"]; the result is independent of the
`onFailure` policy. -/
theorem parse_failure_always_passes (cfg : FilterConfig) (x : ExtractOutcome)
    (h : x = .noJson ∨ x = .decodeError) :
    (∃ r, parseAiResponse cfg x = .ok r ∧ r.passed = true ∧ r.score = some 50 ∧
      r.issues = .jarr [.jstr "parse_error"]) ∧
    (∀ pol, parseAiResponse { cfg with on_failure := pol } x = parseAiResponse cfg x) := by
  rcases h with h | h <;> subst h <;> exact ⟨⟨_, rfl, rfl, rfl, rfl⟩, fun _ => rfl⟩

/-- Witness for C4 at the default configuration and a response without any
JSON object. -/
theorem parse_failure_always_passes_witness :
    (ExtractOutcome.noJson = ExtractOutcome.noJson ∨
      ExtractOutcome.noJson = ExtractOutcome.decodeError) ∧
    ((∃ r, parseAiResponse defaultFilterConfig .noJson = .ok r ∧ r.passed = true ∧
        r.score = some 50 ∧ r.issues = .jarr [.jstr "parse_error"]) ∧
     (∀ pol, parseAiResponse { defaultFilterConfig with on_failure := pol } .noJson =
        parseAiResponse defaultFilterConfig .noJson)) :=
  ⟨Or.inl rfl, parse_failure_always_passes defaultFilterConfig .noJson (Or.inl rfl)⟩

/-- C7 counterexample: the successfully decoded JSON object
`{"score": "abc"}` does not yield the claimed default behaviour
(score 50 read as a number, issues defaulted to [], passed = score ≥
minQualityScore): the `float` coercion raises `ValueError`, so the parser
returns the parse_error fallback with passed = true although 50 is below
the default minQualityScore of 60, and with issues = ["parse_error"]. -/
theorem parse_invalid_score_cex :
    parseAiResponse defaultFilterConfig (.decoded dataBadScore) = .ok parseFailFallback ∧
    parseFailFallback.passed = true ∧
    parseFailFallback.score = some 50 ∧
    ¬(defaultFilterConfig.min_quality_score ≤ (50 : ℚ)) ∧
    parseFailFallback.issues ≠ .jarr [] := by
  refine ⟨rfl, rfl, rfl, by decide, ?_⟩
  simp [parseFailFallback]

/-- C7 (amended): for every successfully extracted and decoded JSON
response, a `score` read as a finite number (absent — read as 50 — or a
number, boolean, or finite float-literal string) gives a result with
issues defaulting to the empty list, analysis defaulting to the empty
string, passed = (score ≥ minQualityScore), the read score, and reason
equal to analysis exactly when not passed (unset otherwise).  A present
score string that `float` rejects raises `ValueError` and triggers the
parse_error fallback (passed = true, score = 50, issues = ["parse_error"]);
a null, list or object score raises `TypeError`, which escapes the parser
and is converted by the scoring task's `onFailure` policy (pass, or an
`ai_error` filter result); an infinity or NaN spelling coerces to a
non-finite score whose threshold comparison the parser applies directly
(passed for +inf, not passed for -inf and NaN). -/
theorem parse_decoded_spec (cfg : FilterConfig) (data : List (String × JVal)) :
    (∀ q : ℚ, pyFloat (jsonGet data "score" (.jnum 50)) = .fin q →
      parseAiResponse cfg (.decoded data) =
        .ok ⟨decide (cfg.min_quality_score ≤ q), some q, jsonGet data "issues" (.jarr []),
          if cfg.min_quality_score ≤ q then none
          else some (jsonGet data "analysis" (.jstr ""))⟩) ∧
    (data.lookup "score" = none →
      pyFloat (jsonGet data "score" (.jnum 50)) = .fin 50) ∧
    (pyFloat (jsonGet data "score" (.jnum 50)) = .err .valueError →
      parseAiResponse cfg (.decoded data) = .ok parseFailFallback ∧
      parseFailFallback.passed = true ∧ parseFailFallback.score = some 50 ∧
      parseFailFallback.issues = .jarr [.jstr "parse_error"]) ∧
    (pyFloat (jsonGet data "score" (.jnum 50)) = .err .typeError →
      parseAiResponse cfg (.decoded data) = .error .typeError ∧
      (cfg.on_failure = "pass" →
        analyzeTweetQuality cfg (.success (.decoded data)) = ⟨true, none, .jarr [], none⟩) ∧
      (cfg.on_failure ≠ "pass" →
        (analyzeTweetQuality cfg (.success (.decoded data))).passed = false ∧
        (analyzeTweetQuality cfg (.success (.decoded data))).issues =
          .jarr [.jstr "ai_error"])) ∧
    (pyFloat (jsonGet data "score" (.jnum 50)) = .pinf →
      parseAiResponse cfg (.decoded data) =
        .ok ⟨true, none, jsonGet data "issues" (.jarr []), none⟩) ∧
    ((pyFloat (jsonGet data "score" (.jnum 50)) = .ninf ∨
      pyFloat (jsonGet data "score" (.jnum 50)) = .nan) →
      parseAiResponse cfg (.decoded data) =
        .ok ⟨false, none, jsonGet data "issues" (.jarr []),
          some (jsonGet data "analysis" (.jstr ""))⟩) := by
  have hparse : ∀ e : PyErr, pyFloat (jsonGet data "score" (.jnum 50)) = .err e →
      parseAiResponse cfg (.decoded data) =
        (match e with
         | .valueError => .ok parseFailFallback
         | .typeError => .error .typeError) := by
    intro e he
    cases e <;> simp only [parseAiResponse, he]
  refine ⟨?_, ?_, ?_, ?_, ?_, ?_⟩
  · intro q hq
    simp only [parseAiResponse, hq]
    by_cases hp : cfg.min_quality_score ≤ q <;> simp [hp]
  · intro hnone
    simp only [jsonGet, hnone, Option.getD]
    rfl
  · intro h
    exact ⟨hparse .valueError h, rfl, rfl, rfl⟩
  · intro h
    have hp := hparse .typeError h
    refine ⟨hp, ?_, ?_⟩
    · intro hpass
      simp [analyzeTweetQuality, hp, hpass]
    · intro hnp
      have hb : (cfg.on_failure == "pass") = false := by
        simpa using hnp
      constructor <;> simp [analyzeTweetQuality, hp, hb]
  · intro h
    simp only [parseAiResponse, h]
  · intro h
    rcases h with h | h <;> simp only [parseAiResponse, h]

/-- Witness for C7 (amended): the finite-score clause applied to the
decoded object with score 85 under the default configuration
(minQualityScore 60), its coercion hypothesis discharged by evaluation. -/
theorem parse_decoded_spec_witness :
    parseAiResponse defaultFilterConfig (.decoded [("score", JVal.jnum 85)]) =
      .ok ⟨decide (defaultFilterConfig.min_quality_score ≤ (85 : ℚ)), some 85,
        jsonGet [("score", JVal.jnum 85)] "issues" (.jarr []),
        if defaultFilterConfig.min_quality_score ≤ (85 : ℚ) then none
        else some (jsonGet [("score", JVal.jnum 85)] "analysis" (.jstr ""))⟩ :=
  (parse_decoded_spec defaultFilterConfig [("score", JVal.jnum 85)]).1 85 rfl

theorem processBatch_onFailure_congr (cfg₁ cfg₂ : FilterConfig)
    (h : cfg₁.on_failure = cfg₂.on_failure) :
    ∀ l, processBatch cfg₁ l = processBatch cfg₂ l := by
  intro l
  induction l with
  | nil => rfl
  | cons p rest ih =>
    obtain ⟨t, o⟩ := p
    cases o with
    | exc m => simp only [processBatch, ih, h]
    | res r => simp only [processBatch, ih]

theorem applyRuleFilters_enabled (cfg : FilterConfig) (b : Bool) :
    ∀ l, applyRuleFilters { cfg with enabled := b } l = applyRuleFilters cfg l := by
  have hcr : checkRules { cfg with enabled := b } = checkRules cfg := funext fun _ => rfl
  intro l
  induction l with
  | nil => rfl
  | cons t rest ih => simp only [applyRuleFilters, ih, hcr]

theorem applyAiFilters_enabled (cfg : FilterConfig) (b : Bool) (oc : ℕ → TaskOutcome)
    (ts : List Tweet) :
    applyAiFilters { cfg with enabled := b } oc ts = applyAiFilters cfg oc ts := by
  have hpb : processBatch { cfg with enabled := b } = processBatch cfg :=
    funext (processBatch_onFailure_congr _ _ rfl)
  unfold applyAiFilters
  rw [hpb]

/-- C2 counterexample: with `enabled = false` in the configuration,
`filterBatch` still rule-filters its input: on a single short tweet it
returns an empty passed list and an annotated filtered tweet, not
`(posts, [])` unchanged. -/
theorem filterBatch_ignores_enabled_cex :
    cfgDisabled.enabled = false ∧
    filterBatch cfgDisabled ocExc [exTweetShort] =
      ([], [{ exTweetShort with
          filtered_reason := some (.jstr "推文过短（<20词）"),
          quality_issues := .jarr [.jstr "too_short"] }]) ∧
    filterBatch cfgDisabled ocExc [exTweetShort] ≠ ([exTweetShort], []) := by
  refine ⟨rfl, rfl, fun h => ?_⟩
  have h1 : ([] : List Tweet) = [exTweetShort] := congrArg Prod.fst h
  exact List.cons_ne_nil _ _ h1.symm

/-- C2 (amended): `filterBatch` on an empty input returns `([], [])`; the
configuration's `enabled` flag is never consulted, so its value does not
change `filterBatch`'s behaviour on any input (in particular, disabling
filtering does not make `filterBatch` return its input unchanged). -/
theorem filterBatch_empty_and_enabled_unread (cfg : FilterConfig) (oc : ℕ → TaskOutcome) :
    filterBatch cfg oc [] = ([], []) ∧
    ∀ b tweets, filterBatch { cfg with enabled := b } oc tweets = filterBatch cfg oc tweets := by
  refine ⟨rfl, fun b tweets => ?_⟩
  simp only [filterBatch, applyRuleFilters_enabled, applyAiFilters_enabled]

theorem processBatch_eq_filterMap (cfg : FilterConfig) :
    ∀ l, processBatch cfg l = (l.filterMap (passSel cfg), l.filterMap (filtSel cfg)) := by
  intro l
  induction l with
  | nil => rfl
  | cons p rest ih =>
    obtain ⟨t, o⟩ := p
    cases o with
    | exc m =>
      by_cases h : (cfg.on_failure == "pass") = true <;>
        simp [processBatch, passSel, filtSel, h, ih]
    | res r =>
      by_cases h : r.passed <;> simp [processBatch, passSel, filtSel, h, ih]

theorem chunkListB_join {α : Type _} (n : ℕ) (hn : 0 < n) :
    ∀ fuel (l : List α), l.length ≤ fuel → (chunkListB n fuel l).flatten = l := by
  intro fuel
  induction fuel with
  | zero =>
    intro l hl
    rw [List.eq_nil_of_length_eq_zero (Nat.le_zero.mp hl)]
    rfl
  | succ f ih =>
    intro l hl
    cases l with
    | nil => rfl
    | cons x xs =>
      show (List.take n (x :: xs) :: chunkListB n f (List.drop n (x :: xs))).flatten = x :: xs
      rw [List.flatten_cons, ih _ ?_, List.take_append_drop]
      simp only [List.length_drop, List.length_cons]
      simp only [List.length_cons] at hl
      omega

theorem chunkList_join {α : Type _} (n : ℕ) (hn : 0 < n) (l : List α) :
    (chunkList n l).flatten = l :=
  chunkListB_join n hn l.length l le_rfl

theorem chunkListB_mem {α : Type _} (n : ℕ) (hn : 0 < n) :
    ∀ fuel (l : List α) c, c ∈ chunkListB n fuel l → c ≠ [] ∧ c.length ≤ n := by
  intro fuel
  induction fuel with
  | zero =>
    intro l c hc
    cases l <;> simp [chunkListB] at hc
  | succ f ih =>
    intro l c hc
    cases l with
    | nil => simp [chunkListB] at hc
    | cons x xs =>
      rcases (by simpa [chunkListB] using hc :
          c = List.take n (x :: xs) ∨ c ∈ chunkListB n f (List.drop n (x :: xs))) with h | h
      · subst h
        constructor
        · cases n with
          | zero => omega
          | succ m => simp [List.take]
        · exact List.length_take_le n (x :: xs)
      · exact ih _ _ h

theorem chunkListB_eq_nil_iff {α : Type _} (n : ℕ) :
    ∀ fuel (l : List α), 1 ≤ fuel → (chunkListB n fuel l = [] ↔ l = []) := by
  intro fuel l hf
  cases fuel with
  | zero => omega
  | succ f => cases l <;> simp [chunkListB]

theorem chunkListB_dropLast {α : Type _} (n : ℕ) (hn : 0 < n) :
    ∀ fuel (l : List α) c, l.length ≤ fuel → c ∈ (chunkListB n fuel l).dropLast →
      c.length = n := by
  intro fuel
  induction fuel with
  | zero =>
    intro l c hl hc
    rw [List.eq_nil_of_length_eq_zero (Nat.le_zero.mp hl)] at hc
    simp [chunkListB] at hc
  | succ f ih =>
    intro l c hl hc
    cases l with
    | nil => simp [chunkListB] at hc
    | cons x xs =>
      have hstep : chunkListB n (f + 1) (x :: xs) =
          List.take n (x :: xs) :: chunkListB n f (List.drop n (x :: xs)) := rfl
      rw [hstep] at hc
      by_cases hrest : chunkListB n f (List.drop n (x :: xs)) = []
      · rw [hrest] at hc
        exact absurd hc (List.not_mem_nil _)
      · rw [List.dropLast_cons_of_ne_nil hrest] at hc
        rcases List.mem_cons.mp hc with h | h
        · subst h
          have hdrop : List.drop n (x :: xs) ≠ [] := by
            intro hd
            rcases Nat.lt_or_ge f 1 with hf | hf
            · interval_cases f
              exact hrest (by cases List.drop n (x :: xs) <;> rfl)
            · exact hrest ((chunkListB_eq_nil_iff n f _ hf).mpr hd)
          have hlen : n < (x :: xs).length := by
            by_contra hge
            exact hdrop (List.drop_eq_nil_iff.mpr (by omega))
          rw [List.length_take]
          simp only [List.length_cons] at hlen ⊢
          omega
        · refine ih _ _ ?_ h
          simp only [List.length_drop, List.length_cons]
          simp only [List.length_cons] at hl
          omega

theorem applyAiFilters_eq_filterMap (cfg : FilterConfig) (oc : ℕ → TaskOutcome)
    (tweets : List Tweet) (h : 0 < cfg.batch_size) :
    applyAiFilters cfg oc tweets =
      ((tweets.enum.map fun p => (p.2, oc p.1)).filterMap (passSel cfg),
       (tweets.enum.map fun p => (p.2, oc p.1)).filterMap (filtSel cfg)) := by
  unfold applyAiFilters
  have hfold : ∀ bs : List (List (Tweet × TaskOutcome)),
      bs.foldr (fun b acc =>
          let r := processBatch cfg b; (r.1 ++ acc.1, r.2 ++ acc.2)) ([], []) =
        (bs.flatten.filterMap (passSel cfg), bs.flatten.filterMap (filtSel cfg)) := by
    intro bs
    induction bs with
    | nil => rfl
    | cons b rest ih =>
      rw [List.foldr_cons, ih]
      simp [processBatch_eq_filterMap, List.filterMap_append]
  rw [hfold, chunkList_join _ h]

theorem mem_of_mem_enumFrom {α : Type _} {l : List α} :
    ∀ (n : ℕ) (p : ℕ × α), p ∈ l.enumFrom n → p.2 ∈ l := by
  induction l with
  | nil => intro n p h; cases h
  | cons x xs ih =>
    intro n p h
    rcases List.mem_cons.mp h with h | h
    · subst h; exact List.mem_cons_self _ _
    · exact List.mem_cons_of_mem _ (ih _ _ h)

/-- C9: the AI stage partitions the rule-approved posts into consecutive
batches of size `batchSize` (all full except possibly a shorter final
one), whose concatenation in order is the input; the passed and filtered
outputs are order-preserving selections (`filterMap`) of the input
sequence paired with its task outcomes; and when the AI stage runs, the
pipeline's filtered output is the rule-filtered posts followed by the
AI-filtered posts. -/
theorem ai_stage_batching (cfg : FilterConfig) (oc : ℕ → TaskOutcome) (tweets : List Tweet)
    (h : 0 < cfg.batch_size) :
    (chunkList cfg.batch_size (tweets.enum.map fun p => (p.2, oc p.1))).flatten =
      (tweets.enum.map fun p => (p.2, oc p.1)) ∧
    (∀ c ∈ chunkList cfg.batch_size (tweets.enum.map fun p => (p.2, oc p.1)),
      c ≠ [] ∧ c.length ≤ cfg.batch_size) ∧
    (∀ c ∈ (chunkList cfg.batch_size (tweets.enum.map fun p => (p.2, oc p.1))).dropLast,
      c.length = cfg.batch_size) ∧
    applyAiFilters cfg oc tweets =
      ((tweets.enum.map fun p => (p.2, oc p.1)).filterMap (passSel cfg),
       (tweets.enum.map fun p => (p.2, oc p.1)).filterMap (filtSel cfg)) ∧
    (cfg.ai_enabled = true → tweets ≠ [] → (applyRuleFilters cfg tweets).1 ≠ [] →
      filterBatch cfg oc tweets =
        ((applyAiFilters cfg oc (applyRuleFilters cfg tweets).1).1,
         (applyRuleFilters cfg tweets).2 ++
           (applyAiFilters cfg oc (applyRuleFilters cfg tweets).1).2)) := by
  refine ⟨chunkList_join _ h _, fun c hc => chunkListB_mem _ h _ _ c hc,
    fun c hc => chunkListB_dropLast _ h _ _ c le_rfl hc,
    applyAiFilters_eq_filterMap cfg oc tweets h, ?_⟩
  intro hai hne hpne
  have h1 : tweets.isEmpty = false := by simpa [List.isEmpty_iff] using hne
  have h2 : (applyRuleFilters cfg tweets).1.isEmpty = false := by
    simpa [List.isEmpty_iff] using hpne
  simp [filterBatch, h1, h2, hai]

/-- Witness for C9 at batch size 2 and five posts; the batch sizes are
[2, 2, 1]. -/
theorem ai_stage_batching_witness :
    0 < cfgB2.batch_size ∧
    ((chunkList cfgB2.batch_size (tweets5.enum.map fun p => (p.2, ocPass85 p.1))).flatten =
      (tweets5.enum.map fun p => (p.2, ocPass85 p.1)) ∧
    (∀ c ∈ chunkList cfgB2.batch_size (tweets5.enum.map fun p => (p.2, ocPass85 p.1)),
      c ≠ [] ∧ c.length ≤ cfgB2.batch_size) ∧
    (∀ c ∈ (chunkList cfgB2.batch_size (tweets5.enum.map fun p => (p.2, ocPass85 p.1))).dropLast,
      c.length = cfgB2.batch_size) ∧
    applyAiFilters cfgB2 ocPass85 tweets5 =
      ((tweets5.enum.map fun p => (p.2, ocPass85 p.1)).filterMap (passSel cfgB2),
       (tweets5.enum.map fun p => (p.2, ocPass85 p.1)).filterMap (filtSel cfgB2)) ∧
    (cfgB2.ai_enabled = true → tweets5 ≠ [] → (applyRuleFilters cfgB2 tweets5).1 ≠ [] →
      filterBatch cfgB2 ocPass85 tweets5 =
        ((applyAiFilters cfgB2 ocPass85 (applyRuleFilters cfgB2 tweets5).1).1,
         (applyRuleFilters cfgB2 tweets5).2 ++
           (applyAiFilters cfgB2 ocPass85 (applyRuleFilters cfgB2 tweets5).1).2))) ∧
    (chunkList cfgB2.batch_size (tweets5.enum.map fun p => (p.2, ocPass85 p.1))).map
      List.length = [2, 2, 1] :=
  ⟨by decide, ai_stage_batching cfgB2 ocPass85 tweets5 (by decide), rfl⟩

/-- C1 counterexample: a post whose scoring task returns a passing result
is returned in the passed list with its `qualityScore` field set to the
result's score — it is not unmodified. -/
theorem ai_passed_post_mutated_cex :
    exTweetAi.quality_score = none ∧
    applyAiFilters defaultFilterConfig ocPass85 [exTweetAi] =
      ([{ exTweetAi with quality_score := some 85 }], []) ∧
    ({ exTweetAi with quality_score := some 85 }).quality_score ≠ exTweetAi.quality_score := by
  refine ⟨rfl, rfl, ?_⟩
  simp [exTweetAi]

/-- C1 (amended): every post in the AI stage's passed output arises from
an input post with at most its `qualityScore` changed (set to the task
result's score when the task returned a result; left untouched on the
exception path); in particular `qualityIssues` and `filteredReason` of
passed posts are never modified, and only filtered posts carry those
annotations. -/
theorem ai_passed_posts_only_score (cfg : FilterConfig) (oc : ℕ → TaskOutcome)
    (tweets : List Tweet) (h : 0 < cfg.batch_size) :
    ∀ t' ∈ (applyAiFilters cfg oc tweets).1,
      ∃ t, t ∈ tweets ∧ ∃ s : Option ℚ, t' = { t with quality_score := s } ∧
        t'.quality_issues = t.quality_issues ∧ t'.filtered_reason = t.filtered_reason := by
  intro t' ht'
  rw [applyAiFilters_eq_filterMap cfg oc tweets h] at ht'
  rcases List.mem_filterMap.mp ht' with ⟨⟨t, o⟩, hmem, hsel⟩
  have htw : t ∈ tweets := by
    rcases List.mem_map.mp hmem with ⟨⟨i, t0⟩, hin, heq⟩
    cases heq
    exact mem_of_mem_enumFrom 0 _ hin
  cases o with
  | exc m =>
    by_cases hp : (cfg.on_failure == "pass") = true
    · simp only [passSel, hp, if_true] at hsel
      cases hsel
      exact ⟨t', htw, t'.quality_score, rfl, rfl, rfl⟩
    · simp [passSel, hp] at hsel
  | res r =>
    by_cases hp : r.passed = true
    · simp only [passSel, hp, if_true] at hsel
      cases hsel
      exact ⟨t, htw, r.score, rfl, rfl, rfl⟩
    · simp [passSel, hp] at hsel

/-- Witness for C1 (amended) at a single post whose task passes with
score 85. -/
theorem ai_passed_posts_only_score_witness :
    ∃ t, t ∈ [exTweetAi] ∧ ∃ s : Option ℚ,
      ({ exTweetAi with quality_score := some 85 } : Tweet) = { t with quality_score := s } ∧
      ({ exTweetAi with quality_score := some 85 } : Tweet).quality_issues = t.quality_issues ∧
      ({ exTweetAi with quality_score := some 85 } : Tweet).filtered_reason =
        t.filtered_reason :=
  ai_passed_posts_only_score defaultFilterConfig ocPass85 [exTweetAi] (by decide)
    { exTweetAi with quality_score := some 85 } (List.mem_singleton_self _)

theorem stripAnn_update (t : Tweet) (qs : Option ℚ) (qi : JVal) (fr : Option JVal) :
    stripAnn (Tweet.mk t.id t.author t.text t.is_reply t.has_quoted_content t.media t.urls
      qs qi fr) = stripAnn t := rfl

theorem ruleFilters_perm (cfg : FilterConfig) :
    ∀ l : List Tweet,
      List.Perm (((applyRuleFilters cfg l).1 ++ (applyRuleFilters cfg l).2).map stripAnn)
        (l.map stripAnn) := by
  intro l
  induction l with
  | nil => simp [applyRuleFilters]
  | cons t rest ih =>
    by_cases hp : (checkRules cfg t).passed = true
    · simpa [applyRuleFilters, hp] using ih.cons (stripAnn t)
    · simp only [applyRuleFilters, hp, Bool.false_eq_true, if_false, List.map_append,
        List.map_cons, stripAnn_update]
      refine List.Perm.trans List.perm_middle ?_
      simpa using ih.cons (stripAnn t)

theorem selPairs_perm (cfg : FilterConfig) :
    ∀ pairs : List (Tweet × TaskOutcome),
      List.Perm ((pairs.filterMap (passSel cfg) ++ pairs.filterMap (filtSel cfg)).map stripAnn)
        (pairs.map fun p => stripAnn p.1) := by
  intro pairs
  induction pairs with
  | nil => simp
  | cons p rest ih =>
    obtain ⟨t, o⟩ := p
    cases o with
    | exc m =>
      by_cases hp : (cfg.on_failure == "pass") = true
      · simpa [passSel, filtSel, hp] using ih.cons (stripAnn t)
      · simp only [List.filterMap_cons, passSel, filtSel, hp, Bool.false_eq_true, if_false,
          List.map_append, List.map_cons, stripAnn_update]
        refine List.Perm.trans List.perm_middle ?_
        simpa using ih.cons (stripAnn t)
    | res r =>
      by_cases hp : r.passed = true
      · simpa [passSel, filtSel, hp, stripAnn_update] using ih.cons (stripAnn t)
      · simp only [List.filterMap_cons, passSel, filtSel, hp, Bool.false_eq_true, if_false,
          List.map_append, List.map_cons, stripAnn_update]
        refine List.Perm.trans List.perm_middle ?_
        simpa using ih.cons (stripAnn t)

theorem aiFilters_perm (cfg : FilterConfig) (oc : ℕ → TaskOutcome) (l : List Tweet)
    (h : 0 < cfg.batch_size) :
    List.Perm (((applyAiFilters cfg oc l).1 ++ (applyAiFilters cfg oc l).2).map stripAnn)
      (l.map stripAnn) := by
  rw [applyAiFilters_eq_filterMap cfg oc l h]
  refine (selPairs_perm cfg _).trans ?_
  rw [show ((l.enum.map fun p => (p.2, oc p.1)).map fun p => stripAnn p.1) =
      (l.enum.map Prod.snd).map stripAnn by
    rw [List.map_map, List.map_map]; rfl]
  rw [List.enum_map_snd]

/-- C10: for every configuration (with a positive batch size, as a batch
size of 0 raises in Python), every outcome assignment for the scoring
tasks, and every input list, the two lists returned by `filterBatch`
partition the input: modulo the annotation fields that filtering writes,
their multiset union is the input — no post is dropped or duplicated,
whatever the `onFailure` policy, timeouts, exceptions or parse failures. -/
theorem filterBatch_partition (cfg : FilterConfig) (oc : ℕ → TaskOutcome)
    (tweets : List Tweet) (h : 0 < cfg.batch_size) :
    List.Perm (((filterBatch cfg oc tweets).1 ++ (filterBatch cfg oc tweets).2).map stripAnn)
      (tweets.map stripAnn) := by
  by_cases hemp : tweets.isEmpty = true
  · rw [List.isEmpty_iff.mp hemp]
    simp [filterBatch]
  · have hemp' : tweets.isEmpty = false := by simpa using hemp
    by_cases hai : (cfg.ai_enabled && !(applyRuleFilters cfg tweets).1.isEmpty) = true
    · simp only [filterBatch, hemp', Bool.false_eq_true, if_false, hai, if_true]
      have hA := aiFilters_perm cfg oc (applyRuleFilters cfg tweets).1 h
      have hR := ruleFilters_perm cfg tweets
      simp only [List.map_append] at hA hR ⊢
      refine List.Perm.trans (List.Perm.append_left _ List.perm_append_comm) ?_
      rw [← List.append_assoc]
      exact (hA.append (List.Perm.refl _)).trans hR
    · have hai' : (cfg.ai_enabled && !(applyRuleFilters cfg tweets).1.isEmpty) = false := by
        simpa using hai
      simp only [filterBatch, hemp', Bool.false_eq_true, if_false, hai']
      exact ruleFilters_perm cfg tweets

/-- Witness for C10 at the default configuration, an exception-producing
oracle and two concrete posts. -/
theorem filterBatch_partition_witness :
    List.Perm
      (((filterBatch defaultFilterConfig ocExc [exTweetShort, exTweetAi]).1 ++
        (filterBatch defaultFilterConfig ocExc [exTweetShort, exTweetAi]).2).map stripAnn)
      (([exTweetShort, exTweetAi]).map stripAnn) :=
  filterBatch_partition defaultFilterConfig ocExc [exTweetShort, exTweetAi] (by decide)
